import Mathlib

/-!
Verification of the gridtools storage / stencil-composition layer.

Shallow embedding of the storage classes (base_storage, extend_width),
the CUDA iterate domain's memory-path selection and cached reads, the
cache DSL descriptors, the local-domain placeholder check, and
make_integer_sequence, together with theorems settling the specification
claims about them.

Machine integers (uint_t) are modelled as Nat: every quantity involved
(dimensions, strides, indices) is non-negative in the source, and none of
the index arithmetic at the inputs considered can overflow a 32/64-bit
unsigned, so plain Nat arithmetic is faithful.
-/

namespace Gridtools

/-!
Layout maps.

layout_map<i1,i2,i3> is instantiated only with permutations of the values
0,1,2; we enumerate the six instantiations.  get<I> returns the value
stored at position I; pos_<C> returns the position at which the value C
occurs; find<C>(a,b,c) returns the tuple element at position pos_<C>.
-/

inductive Layout where
  | l012 | l021 | l102 | l120 | l201 | l210
  deriving DecidableEq, Repr

/-- Embeds layout_map::get<I> - the layout value at position I (0 for
I greater than 2, which the source never instantiates). -/
def Layout.get : Layout → Nat → Nat
  | .l012, 0 => 0 | .l012, 1 => 1 | .l012, 2 => 2
  | .l021, 0 => 0 | .l021, 1 => 2 | .l021, 2 => 1
  | .l102, 0 => 1 | .l102, 1 => 0 | .l102, 2 => 2
  | .l120, 0 => 1 | .l120, 1 => 2 | .l120, 2 => 0
  | .l201, 0 => 2 | .l201, 1 => 0 | .l201, 2 => 1
  | .l210, 0 => 2 | .l210, 1 => 1 | .l210, 2 => 0
  | _, _ => 0

/-- Embeds layout_map::pos_<C> - the position at which value C occurs in
the layout map. -/
def Layout.pos (L : Layout) (c : Nat) : Nat :=
  if L.get 0 = c then 0 else if L.get 1 = c then 1 else 2

/-- Embeds layout_map::find<C>(x0,x1,x2) - the tuple element at the
position where value C occurs. -/
def Layout.find (L : Layout) (c : Nat) (x0 x1 x2 : Nat) : Nat :=
  match L.pos c with
  | 0 => x0
  | 1 => x1
  | _ => x2

/-!
base_storage<Backend, ValueType, Layout, IsTemporary>, constructed with
extents (dim1, dim2, dim3).  The constructor fills the stride table as

    m_strides[0] = dim1*dim2*dim3
    m_strides[1] = dims[layout::get<2>()] * dims[layout::get<1>()]
    m_strides[2] = dims[layout::get<2>()]

with dims[] = (dim1, dim2, dim3).
-/

structure Storage where
  dim1 : Nat
  dim2 : Nat
  dim3 : Nat
  layout : Layout
  isTemporary : Bool

namespace Storage

/-- The constructor-local array dims[] = (dim1, dim2, dim3), as an indexed
lookup (0 past the end, which the source never reads). -/
def dimsAt (st : Storage) : Nat → Nat
  | 0 => st.dim1
  | 1 => st.dim2
  | 2 => st.dim3
  | _ => 0

/-- Stride entry m_strides[0] as set by the constructor. -/
def s0 (st : Storage) : Nat := st.dim1 * st.dim2 * st.dim3

/-- Stride entry m_strides[1] as set by the constructor. -/
def s1 (st : Storage) : Nat :=
  st.dimsAt (st.layout.get 2) * st.dimsAt (st.layout.get 1)

/-- Stride entry m_strides[2] as set by the constructor. -/
def s2 (st : Storage) : Nat := st.dimsAt (st.layout.get 2)

/-- The stride table m_strides as an indexed lookup (0 past the end; the
in-bounds entries are exactly the three set by the constructor). -/
def strAt (st : Storage) : Nat → Nat
  | 0 => st.s0
  | 1 => st.s1
  | 2 => st.s2
  | _ => 0

/-- Embeds base_storage::size(), which returns m_strides[0]. -/
def size (st : Storage) : Nat := st.strAt 0

/-- Embeds base_storage::dims_coordwise<Coordinate>(m_strides), which
recovers a dimension from the stride table:

    (pos_<C> == 2) ? str[2] : find<C>(str) / str[get<C>() + 1]

where find<C>(str) reads str[pos_<C>]. -/
def dims_coordwise (st : Storage) (c : Nat) : Nat :=
  if st.layout.pos c = 2 then st.strAt 2
  else st.strAt (st.layout.pos c) / st.strAt (st.layout.get c + 1)

/-- Embeds base_storage::dims<I>(), which forwards to
dims_coordwise<I>(m_strides). -/
def dims (st : Storage) (c : Nat) : Nat := st.dims_coordwise c

/-- Embeds base_storage::_index(i,j,k).  For a temporary storage each
layout-found coordinate is reduced with modulus (Euclidean remainder; the
arguments are unsigned, so it is the ordinary remainder) against
dims_coordwise of its stride level; otherwise the plain strided index is
formed.  The temporary branch of the source additionally begins with
assert(false); in assertion-enabled builds it aborts before computing
anything.  This definition models the index arithmetic, i.e. the NDEBUG
behaviour. -/
def index (st : Storage) (i j k : Nat) : Nat :=
  if st.isTemporary then
    st.s1 * (st.layout.find 0 i j k % st.dims_coordwise 0) +
      st.s2 * (st.layout.find 1 i j k % st.dims_coordwise 1) +
      (st.layout.find 2 i j k % st.dims_coordwise 2)
  else
    st.s1 * st.layout.find 0 i j k +
      st.s2 * st.layout.find 1 i j k +
      st.layout.find 2 i j k

/-- Embeds base_storage::operator()(i,j,k): it asserts
_index(i,j,k) < m_strides[0] and then returns m_data[_index(i,j,k)].
A failed assertion aborts the process, which we model as none; a
successful access returns some of the addressed element. -/
def access {α : Type} (st : Storage) (data : Nat → α) (i j k : Nat) :
    Option α :=
  if st.index i j k < st.strAt 0 then some (data (st.index i j k)) else none

end Storage

/-!
extend_width<Storage, ExtraWidth>: a ring buffer m_fields of n_args
snapshot pointers.  advance() executes

    tmp = m_fields[n_args-1];
    for (i = 1; i < n_args; i++) m_fields[i] = m_fields[i-1];
    m_fields[0] = tmp;

where the loop runs with ascending i and each assignment is a plain
pointer copy.  Pointer values are modelled as Nat, the buffer as a list.
-/

/-- Embeds extend_width::advance(): the ascending sequential copy loop
followed by writing the saved last pointer into slot 0.  The foldl runs
the loop body for i = 1, 2, ..., n_args-1 in that order, each iteration
reading the buffer as left by the previous one, exactly as the source
loop does. -/
def advanceFields (l : List Nat) : List Nat :=
  let tmp := l.getD (l.length - 1) 0
  let shifted := (List.range' 1 (l.length - 1)).foldl
    (fun acc i => acc.set i (acc.getD (i - 1) 0)) l
  shifted.set 0 tmp

/-- The ring rotation that the claim (and the comment "cycle in a ring"
in the source) describes: slot 0 receives the pointer previously in the
last slot and every slot i receives the pointer previously in slot i-1. -/
def ringCycleAdvance (l : List Nat) : List Nat :=
  match l with
  | [] => []
  | _ => l.getD (l.length - 1) 0 :: l.dropLast

/-!
Cache DSL (define_caches.hpp, referenced through its compile-time test).
A cache descriptor cache_impl<CacheType, Arg, CacheIOPolicy> pairs a
caching scope, a placeholder (identified by its arg index), and an IO
policy.
-/

inductive CacheScope where
  | IJ | K | IJK
  deriving DecidableEq, Repr

inductive CachePolicy where
  | fill | flush | localPolicy
  deriving DecidableEq, Repr

/-- A cache descriptor cache_impl<CacheType, Arg, CacheIOPolicy>; the
placeholder is identified by its arg index. -/
structure CacheImpl where
  cacheType : CacheScope
  arg : Nat
  policy : CachePolicy
  deriving DecidableEq, Repr

/-- Modelled from the spec: the implementation of the variadic cache
constructor is not under src/; the repository's compile-time test asserts
that cache<CacheType, Policy>(arg0, ..., argN) produces one
cache_impl<CacheType, argI, Policy> per argument, in argument order. -/
def cache (s : CacheScope) (p : CachePolicy) (args : List Nat) :
    List CacheImpl :=
  args.map (fun a => ⟨s, a, p⟩)

/-- Modelled from the spec: the implementation of define_caches is not
under src/; the repository's compile-time test asserts that
define_caches(seq0, ..., seqN) yields the concatenation of the given
cache-descriptor sequences in declaration order. -/
def define_caches (seqs : List (List CacheImpl)) : List CacheImpl :=
  seqs.flatten

/-!
CUDA iterate domain: memory-path selection (iterate_domain_cuda.hpp).

accessor_points_to_readonly_arg looks the accessor's arg up in
readonly_args_indices_t (the set of args that are read-only in every
stage of every multistage); accessor_read_from_texture additionally
requires that the arg is not in the user's bypass_caches_set_t and that
the accessor's return type is arithmetic.  get_value_impl dispatches on
accessor_read_from_texture: the texture path (an ldg read) is taken on
devices of compute capability at least 3.5, every other combination
reads ordinary global memory (get_gmem_value).

In the embedding an accessor is identified by its arg index (the source
maps the accessor index through the esf_args list and arg_index; for the
index sets compared here that mapping is the identity), and the two
compile-time sets are index lists.
-/

inductive MemPath where
  | texture | gmem
  deriving DecidableEq, Repr

structure CudaReadCtx where
  readonlyArgs : List Nat
  bypassCaches : List Nat
  arithmeticReturn : Nat → Bool
  cudaArchGE350 : Bool

/-- Embeds iterate_domain_cuda::accessor_points_to_readonly_arg. -/
def accessor_points_to_readonly_arg (ctx : CudaReadCtx) (idx : Nat) :
    Bool :=
  ctx.readonlyArgs.contains idx

/-- Embeds iterate_domain_cuda::accessor_read_from_texture:
the conjunction of accessor_points_to_readonly_arg, absence from the
bypass-caches set, and arithmeticity of the accessor return type. -/
def accessor_read_from_texture (ctx : CudaReadCtx) (idx : Nat) : Bool :=
  (accessor_points_to_readonly_arg ctx idx &&
    !(ctx.bypassCaches.contains idx)) && ctx.arithmeticReturn idx

/-- Embeds the pair of iterate_domain_cuda::get_value_impl overloads:
the enable_if dispatch on accessor_read_from_texture, with the ldg
texture read guarded by __CUDA_ARCH__ >= 350 and every other combination
falling back to get_gmem_value. -/
def get_value_impl (ctx : CudaReadCtx) (idx : Nat) : MemPath :=
  if accessor_read_from_texture ctx idx then
    if ctx.cudaArchGE350 then MemPath.texture else MemPath.gmem
  else MemPath.gmem

/-!
CUDA iterate domain: cached reads (get_cache_value_impl).

The two overloads dispatch on membership of the accessor's arg in
bypass_caches_set_t: when absent, the shared-memory IJ cache tile of the
arg is read with at(m_thread_pos, accessor.offsets()); when present, the
request goes to super::get_value with the data pointer obtained from
get_data_pointer, i.e. an ordinary strided memory read.
-/

structure CudaCacheCtx (α : Type) where
  bypassCaches : List Nat
  threadPos : Int × Int
  /-- The shared cache tile of an arg, as a function of an absolute
  in-tile position. -/
  ijCacheTile : Nat → Int × Int → α
  /-- The direct read super::get_value(accessor,
  get_data_pointer(accessor)) through the data pointer and the computed
  strides, abstracted as a function of the arg and the offsets. -/
  memRead : Nat → Int × Int → α

/-- Embeds iterate_domain_cuda::get_cache_value_impl (both enable_if
overloads, fused into the dispatch on the bypass set).  The tile
addressing is modelled from the spec: cache_storage::at is not under
src/; the spec states the cached read is addressed by the current thread
position plus the accessor's offsets. -/
def get_cache_value_impl {α : Type} (ctx : CudaCacheCtx α) (idx : Nat)
    (offs : Int × Int) : α :=
  if ctx.bypassCaches.contains idx then ctx.memRead idx offs
  else
    ctx.ijCacheTile idx
      (ctx.threadPos.1 + offs.1, ctx.threadPos.2 + offs.2)

/-!
Local domain (local_domain / local_domain_base).

local_domain statically asserts is_sequence_of<EsfArgs, is_arg>: binding
anything that is not a placeholder of the expected shape fails the build,
so no local_domain value exists for such a binding list.  The runtime
init() merely copies storage pointers and performs no shape checking.
-/

/-- A candidate element of the EsfArgs binding list: either a placeholder
arg<I, StorageType> or something of a different shape. -/
inductive Binding where
  | argPlaceholder (index : Nat)
  | notAnArg
  deriving DecidableEq, Repr

/-- Embeds the is_arg trait. -/
def is_arg : Binding → Bool
  | .argPlaceholder _ => true
  | .notAnArg => false

/-- Embeds is_sequence_of<EsfArgs, is_arg>. -/
def is_sequence_of_args (l : List Binding) : Bool := l.all is_arg

structure LocalDomain where
  esfArgs : List Binding

/-- Embeds instantiating local_domain<...> over a binding list: the
GRIDTOOLS_STATIC_ASSERT on is_sequence_of<EsfArgs, is_arg> makes the
build fail (none) whenever some element of the list is not an arg, before
any executable artifact exists; otherwise the type (some value) exists. -/
def mkLocalDomain (esfArgs : List Binding) : Option LocalDomain :=
  if is_sequence_of_args esfArgs then some ⟨esfArgs⟩ else none

/-- Embeds local_domain::init: it assigns the actual storage pointers
into the fusion vectors and performs no shape or type checking at
runtime; it is total and never reports an error. -/
def LocalDomain.init (ld : LocalDomain) (ptrs : List Nat) :
    LocalDomain × List Nat :=
  (ld, ptrs)

/-!
make_integer_sequence (gt_integer_sequence.hpp).

concat of two integer sequences appends the second to the first, shifting
every element of the second by the number of elements of the first
(the pack expansion (sizeof...(I1) + I2)...).
make_integer_sequence<UInt, N> recurses as
concat(make_integer_sequence<N/2>, make_integer_sequence<N - N/2>) with
base cases N = 0 (empty) and N = 1 (the singleton 0).  Sequences over the
unsigned element type UInt are modelled as List Nat.
-/

/-- Embeds the concat metafunction on integer sequences. -/
def concatSeq (s1 s2 : List Nat) : List Nat :=
  s1 ++ s2.map (fun i => s1.length + i)

/-- Embeds make_integer_sequence<UInt, N>. -/
def make_integer_sequence : Nat → List Nat
  | 0 => []
  | 1 => [0]
  | (n+2) =>
      concatSeq (make_integer_sequence ((n+2)/2))
        (make_integer_sequence ((n+2) - (n+2)/2))
  decreasing_by
  · exact Nat.div_lt_self (Nat.succ_pos _) (by omega)
  · exact Nat.sub_lt (Nat.succ_pos _) (Nat.div_pos (by omega) (by omega))

/-!
Theorems settling the claims.
-/

/-- C1 counterexample: for the temporary storage with extents (3,1,1) and
layout_map<2,1,0> (the layout the repository uses on CUDA), the access
(i,j,k) = (0,0,1) lies outside the extents (k extent is 1), yet the
modular index computed by _index is 3, which is not below size() = 3: the
wrapped index leaves the buffer, and operator() fails its assertion
instead of wrapping the access around. -/
theorem temporary_index_escapes_buffer :
    (Storage.mk 3 1 1 .l210 true).isTemporary = true ∧
    (Storage.mk 3 1 1 .l210 true).index 0 0 1 = 3 ∧
    (Storage.mk 3 1 1 .l210 true).size = 3 ∧
    ¬ ((Storage.mk 3 1 1 .l210 true).index 0 0 1 <
        (Storage.mk 3 1 1 .l210 true).size) ∧
    (Storage.mk 3 1 1 .l210 true).access (fun n => n) 0 0 1 = none := by
  decide

/-- C1 (amended): for every temporary storage with the identity layout
layout_map<0,1,2> and positive extents, _index(i,j,k) wraps each
coordinate modulo the matching extent (i mod dim1, j mod dim2, k mod
dim3, with the constructor's strides as coefficients) and the resulting
linear index always stays strictly below the storage size, so such
working-buffer accesses wrap around instead of leaving the buffer. -/
theorem temporary_index_wraps_identity_layout (d1 d2 d3 i j k : Nat)
    (h1 : 0 < d1) (h2 : 0 < d2) (h3 : 0 < d3) :
    (Storage.mk d1 d2 d3 .l012 true).index i j k
        = d3 * d2 * (i % d1) + d3 * (j % d2) + k % d3 ∧
    (Storage.mk d1 d2 d3 .l012 true).index i j k
        < (Storage.mk d1 d2 d3 .l012 true).size := by
  have h32 : 0 < d3 * d2 := Nat.mul_pos h3 h2
  have e0 : (Storage.mk d1 d2 d3 .l012 true).dims_coordwise 0 = d1 := by
    simp only [Storage.dims_coordwise, Layout.pos, Layout.get,
      Storage.strAt, Storage.s0, Storage.s1, Storage.s2, Storage.dimsAt]
    norm_num
    exact Nat.div_eq_of_eq_mul_left h32 (by ring)
  have e1 : (Storage.mk d1 d2 d3 .l012 true).dims_coordwise 1 = d2 := by
    simp only [Storage.dims_coordwise, Layout.pos, Layout.get,
      Storage.strAt, Storage.s0, Storage.s1, Storage.s2, Storage.dimsAt]
    norm_num
    exact Nat.div_eq_of_eq_mul_left h3 (by ring)
  have e2 : (Storage.mk d1 d2 d3 .l012 true).dims_coordwise 2 = d3 := by
    simp only [Storage.dims_coordwise, Layout.pos, Layout.get,
      Storage.strAt, Storage.s0, Storage.s1, Storage.s2, Storage.dimsAt]
    norm_num
  have eidx : (Storage.mk d1 d2 d3 .l012 true).index i j k
      = d3 * d2 * (i % d1) + d3 * (j % d2) + k % d3 := by
    simp only [Storage.index, e0, e1, e2]
    norm_num [Layout.find, Layout.pos, Layout.get, Storage.s1, Storage.s2,
      Storage.dimsAt]
  refine ⟨eidx, ?_⟩
  rw [eidx]
  show d3 * d2 * (i % d1) + d3 * (j % d2) + k % d3 < d1 * d2 * d3
  have hi : i % d1 < d1 := Nat.mod_lt _ h1
  have hj : j % d2 < d2 := Nat.mod_lt _ h2
  have hk : k % d3 < d3 := Nat.mod_lt _ h3
  calc d3 * d2 * (i % d1) + d3 * (j % d2) + k % d3
      < d3 * d2 * (i % d1) + d3 * (j % d2) + d3 := by omega
    _ = d3 * d2 * (i % d1) + d3 * ((j % d2) + 1) := by ring
    _ ≤ d3 * d2 * (i % d1) + d3 * d2 := by
        have hle : (j % d2) + 1 ≤ d2 := hj
        have := Nat.mul_le_mul_left d3 hle
        omega
    _ = d3 * d2 * ((i % d1) + 1) := by ring
    _ ≤ d3 * d2 * d1 := Nat.mul_le_mul_left (d3 * d2) hi
    _ = d1 * d2 * d3 := by ring

/-- Witness for the amended C1 theorem at extents (2,3,4) and access
(5,7,9). -/
theorem temporary_index_wraps_identity_layout_witness :
    (Storage.mk 2 3 4 .l012 true).index 5 7 9
        = 4 * 3 * (5 % 2) + 4 * (7 % 3) + 9 % 4 ∧
    (Storage.mk 2 3 4 .l012 true).index 5 7 9
        < (Storage.mk 2 3 4 .l012 true).size :=
  temporary_index_wraps_identity_layout 2 3 4 5 7 9 (by decide) (by decide)
    (by decide)

/-- C2: an element access through operator()(i,j,k) succeeds exactly when
the computed linear index is strictly below the total storage size
(m_strides[0], the value size() returns); the returned element is the one
at that index, and an out-of-bounds index makes the assertion abort the
access (none), with no recovery. -/
theorem access_asserts_index_below_size {α : Type} (st : Storage)
    (data : Nat → α) (i j k : Nat) :
    ((st.access data i j k).isSome ↔ st.index i j k < st.size) ∧
    (∀ v, st.access data i j k = some v → v = data (st.index i j k)) := by
  unfold Storage.access Storage.size
  constructor
  · by_cases h : st.index i j k < st.strAt 0 <;> simp [h]
  · intro v hv
    by_cases h : st.index i j k < st.strAt 0 <;> simp [h] at hv
    exact hv.symm

/-- Witness for the C2 theorem: for the 2x2x2 identity-layout storage the
access (1,1,1) has index 7 < 8 and therefore succeeds. -/
theorem access_asserts_index_below_size_witness :
    ((Storage.mk 2 2 2 .l012 false).access (fun n => n) 1 1 1).isSome :=
  (access_asserts_index_below_size (Storage.mk 2 2 2 .l012 false)
    (fun n => n) 1 1 1).1.mpr (by decide)

/-- C3 counterexample: an accessor whose arg is read-only in every stage
and absent from the bypass set is still not routed through the
read-only-optimized path when its return type is not arithmetic, because
accessor_read_from_texture also requires boost::is_arithmetic of the
accessor return type; this refutes the claimed "if and only if". -/
theorem texture_routing_counterexample :
    accessor_points_to_readonly_arg
        ⟨[0], [], fun _ => false, true⟩ 0 = true ∧
    (CudaReadCtx.mk [0] [] (fun _ => false) true).bypassCaches.contains 0
        = false ∧
    get_value_impl ⟨[0], [], fun _ => false, true⟩ 0 = MemPath.gmem ∧
    get_value_impl ⟨[0], [], fun _ => false, true⟩ 0 ≠ MemPath.texture := by
  decide

/-- C3 (amended): on the CUDA backend a value is routed through the
read-only-optimized (texture / ldg) path if and only if the accessor's
arg is read-only in every stage of every multistage, the arg is not in
the user's bypass set, the accessor's return type is arithmetic, and the
device has compute capability at least 3.5; in every other combination
the value is read as an ordinary global-memory access. -/
theorem texture_routing_iff (ctx : CudaReadCtx) (idx : Nat) :
    (get_value_impl ctx idx = MemPath.texture ↔
      accessor_points_to_readonly_arg ctx idx = true ∧
      ctx.bypassCaches.contains idx = false ∧
      ctx.arithmeticReturn idx = true ∧
      ctx.cudaArchGE350 = true) ∧
    (accessor_read_from_texture ctx idx = false →
      get_value_impl ctx idx = MemPath.gmem) := by
  unfold get_value_impl accessor_read_from_texture
    accessor_points_to_readonly_arg
  cases hro : ctx.readonlyArgs.contains idx <;>
    cases hby : ctx.bypassCaches.contains idx <;>
    cases har : ctx.arithmeticReturn idx <;>
    cases harch : ctx.cudaArchGE350 <;>
    simp [hro, hby, har, harch]

/-- Witness for the amended C3 theorem: a read-only, non-bypassed,
arithmetic accessor on a compute-capability-3.5 device reads through the
texture path. -/
theorem texture_routing_iff_witness :
    get_value_impl ⟨[3], [], fun _ => true, true⟩ 3 = MemPath.texture :=
  (texture_routing_iff ⟨[3], [], fun _ => true, true⟩ 3).1.mpr
    ⟨by decide, by decide, by decide, by decide⟩

/-- C4: for an accessor whose arg carries a cache annotation, the CUDA
iterate domain serves the request from the shared cache tile of that
arg, addressed by the current thread position plus the accessor's
offsets; if the user placed the arg in the bypass-caches set, the same
request instead performs a direct memory read through the data pointer
and computed strides. -/
theorem cached_read_dispatch {α : Type} (ctx : CudaCacheCtx α) (idx : Nat)
    (offs : Int × Int) :
    (ctx.bypassCaches.contains idx = false →
      get_cache_value_impl ctx idx offs =
        ctx.ijCacheTile idx
          (ctx.threadPos.1 + offs.1, ctx.threadPos.2 + offs.2)) ∧
    (ctx.bypassCaches.contains idx = true →
      get_cache_value_impl ctx idx offs = ctx.memRead idx offs) := by
  unfold get_cache_value_impl
  constructor <;> intro h <;> rw [h] <;> simp

/-- Witness for the C4 theorem: with thread position (4,5), bypass set
containing only arg 1, and offsets (2,3), arg 0 is served from the cache
tile at (6,8) while arg 1 is read directly from memory. -/
theorem cached_read_dispatch_witness :
    get_cache_value_impl
        (CudaCacheCtx.mk [1] (4, 5) (fun i p => p.1 + p.2 + i)
          (fun i _ => 100 + i)) 0 (2, 3) = 14 ∧
    get_cache_value_impl
        (CudaCacheCtx.mk [1] (4, 5) (fun i p => p.1 + p.2 + i)
          (fun i _ => 100 + i)) 1 (2, 3) = 101 := by
  constructor
  · exact ((cached_read_dispatch
      (CudaCacheCtx.mk [1] (4, 5) (fun i p => p.1 + p.2 + i)
        (fun i _ => 100 + i)) 0 (2, 3)).1 (by decide)).trans (by decide)
  · exact ((cached_read_dispatch
      (CudaCacheCtx.mk [1] (4, 5) (fun i p => p.1 + p.2 + i)
        (fun i _ => 100 + i)) 1 (2, 3)).2 (by decide)).trans (by decide)

/-- C5: define_caches applied to the three single-placeholder cache
constructions cache<IJ,fill>(arg0), cache<IJK,flush>(arg1),
cache<K,local>(arg2) produces exactly the three cache descriptors
cache_impl<IJ,arg0,fill>, cache_impl<IJK,arg1,flush>,
cache_impl<K,arg2,local>, in declaration order, each preserving its
scope, placeholder and policy. -/
theorem define_caches_declaration_order :
    define_caches
        [cache .IJ .fill [0], cache .IJK .flush [1],
          cache .K .localPolicy [2]] =
      [⟨.IJ, 0, .fill⟩, ⟨.IJK, 1, .flush⟩, ⟨.K, 2, .localPolicy⟩] := by
  rfl

/-- C6: a single cache constructor over several placeholders,
cache<IJ,fill>(arg0, arg1, arg2), yields one descriptor per placeholder
in argument order, each pairing that placeholder with the scope IJ and
the policy fill. -/
theorem cache_variadic_per_placeholder :
    cache .IJ .fill [0, 1, 2] =
      [⟨.IJ, 0, .fill⟩, ⟨.IJ, 1, .fill⟩, ⟨.IJ, 2, .fill⟩] := by
  rfl

/-- C7: a local_domain exists for a binding list exactly when every
element of the list is a placeholder/arg of the expected shape: a
placeholder-storage mismatch fails the static assertion and no
local_domain value (hence no executable artifact) exists for it, while a
successfully built local_domain carries precisely the given binding
list; the runtime init performs no such check. -/
theorem local_domain_static_arg_check (args : List Binding) :
    ((mkLocalDomain args).isSome ↔ ∀ b ∈ args, is_arg b = true) ∧
    (∀ ld, mkLocalDomain args = some ld → ld.esfArgs = args) ∧
    (∀ ld ptrs, LocalDomain.init ld ptrs = (ld, ptrs)) := by
  refine ⟨?_, ?_, fun _ _ => rfl⟩
  · unfold mkLocalDomain is_sequence_of_args
    by_cases h : args.all is_arg <;> simp [h] <;>
      simpa [List.all_eq_true] using h
  · intro ld hld
    unfold mkLocalDomain at hld
    by_cases h : is_sequence_of_args args <;> simp [h] at hld
    rw [← hld]

/-- Witness for the C7 theorem: a binding list containing one element
that is not an arg admits no local_domain. -/
theorem local_domain_static_arg_check_witness :
    ¬ (mkLocalDomain [Binding.argPlaceholder 0, Binding.notAnArg]).isSome :=
  fun h =>
    absurd ((local_domain_static_arg_check _).1.mp h Binding.notAnArg
      (by decide)) (by decide)

/-- C9 counterexample: for a storage with extents (2,3,5) and the cyclic
layout permutation layout_map<1,2,0>, dims_coordwise<2>(m_strides)
returns 1 instead of the original extent 5 along coordinate 2, so the
extents/strides round trip fails under that layout permutation. -/
theorem dims_coordwise_cyclic_layout_counterexample :
    (Storage.mk 2 3 5 .l120 false).dims_coordwise 2 = 1 ∧
    ¬ ((Storage.mk 2 3 5 .l120 false).dims_coordwise 2 = 5) := by
  decide

/-- C9 (amended): for every base_storage constructed with positive
extents (dim1, dim2, dim3) under any self-inverse layout permutation
(layout_map<0,1,2>, <0,2,1>, <1,0,2> or <2,1,0>, which include both
layouts the repository instantiates), size() returns dim1*dim2*dim3 and
dims_coordwise<c>(m_strides) (and hence dims<c>()) recovers the original
extent along each coordinate c from the stride table computed by the
constructor. -/
theorem storage_extent_stride_roundtrip (d1 d2 d3 : Nat) (L : Layout)
    (b : Bool) (h1 : 0 < d1) (h2 : 0 < d2) (h3 : 0 < d3)
    (hL : L = .l012 ∨ L = .l021 ∨ L = .l102 ∨ L = .l210) :
    (Storage.mk d1 d2 d3 L b).size = d1 * d2 * d3 ∧
    (Storage.mk d1 d2 d3 L b).dims 0 = d1 ∧
    (Storage.mk d1 d2 d3 L b).dims 1 = d2 ∧
    (Storage.mk d1 d2 d3 L b).dims 2 = d3 := by
  rcases hL with h | h | h | h <;> subst h <;>
    refine ⟨rfl, ?_, ?_, ?_⟩ <;>
    · simp only [Storage.dims, Storage.dims_coordwise, Layout.pos,
        Layout.get, Storage.strAt, Storage.s0, Storage.s1, Storage.s2,
        Storage.dimsAt]
      norm_num
      all_goals
        first
          | exact Nat.div_eq_of_eq_mul_left (Nat.mul_pos h3 h2) (by ring)
          | exact Nat.div_eq_of_eq_mul_left (Nat.mul_pos h2 h3) (by ring)
          | exact Nat.div_eq_of_eq_mul_left (Nat.mul_pos h3 h1) (by ring)
          | exact Nat.div_eq_of_eq_mul_left (Nat.mul_pos h1 h2) (by ring)
          | exact Nat.div_eq_of_eq_mul_left h1 (by ring)
          | exact Nat.div_eq_of_eq_mul_left h2 (by ring)
          | exact Nat.div_eq_of_eq_mul_left h3 (by ring)

/-- Witness for the amended C9 theorem at extents (2,3,5) under
layout_map<2,1,0>. -/
theorem storage_extent_stride_roundtrip_witness :
    (Storage.mk 2 3 5 .l210 false).size = 2 * 3 * 5 ∧
    (Storage.mk 2 3 5 .l210 false).dims 0 = 2 ∧
    (Storage.mk 2 3 5 .l210 false).dims 1 = 3 ∧
    (Storage.mk 2 3 5 .l210 false).dims 2 = 5 :=
  storage_extent_stride_roundtrip 2 3 5 .l210 false (by decide) (by decide)
    (by decide) (by decide)

/-- C10: extend_width::advance() does not cycle the snapshot buffer in a
ring.  At n_args = 3 with pointers (10,20,30) one call yields
(30,10,10): the ascending copy loop overwrites slot 1 before it is read
as a source for slot 2, so slot 2 receives the pointer previously in
slot 0 rather than the one in slot 1, and three successive calls yield
(30,10,10) instead of restoring the original arrangement, contradicting
the ring rotation described by the claim and by the "cycle in a ring"
comment in the source. -/
theorem advance_is_not_a_ring_cycle :
    advanceFields [10, 20, 30] = [30, 10, 10] ∧
    ringCycleAdvance [10, 20, 30] = [30, 10, 20] ∧
    advanceFields [10, 20, 30] ≠ ringCycleAdvance [10, 20, 30] ∧
    advanceFields (advanceFields (advanceFields [10, 20, 30]))
        ≠ [10, 20, 30] := by
  decide

/-- C8: make_integer_sequence<UInt, N> yields the contiguous sequence
0, 1, ..., N-1: the divide-and-conquer concat of the sequences for N/2
and N - N/2, shifting the second by the length of the first, always
reconstructs the range. -/
theorem make_integer_sequence_eq_range (n : Nat) :
    make_integer_sequence n = List.range n := by
  induction n using Nat.strong_induction_on with
  | _ n ih =>
    match n with
    | 0 => simp [make_integer_sequence]
    | 1 => rw [make_integer_sequence]; rfl
    | (m+2) =>
      rw [make_integer_sequence]
      rw [ih ((m+2)/2) (Nat.div_lt_self (Nat.succ_pos _) (by omega))]
      rw [ih ((m+2) - (m+2)/2)
        (Nat.sub_lt (Nat.succ_pos _) (Nat.div_pos (by omega) (by omega)))]
      unfold concatSeq
      rw [List.length_range]
      have h : (m+2)/2 + ((m+2) - (m+2)/2) = m+2 := by omega
      conv_rhs => rw [← h]
      rw [List.range_add]

end Gridtools
